import Mathlib

/-!
Verification of the DesktopCommanderMCP first-run setup script.

The setup script detects the host platform, rewrites the tool-local config
file (`~/.claude-server-commander/config.json`), loads or default-initializes
the Claude Desktop host configuration JSON, merges in a server-launch entry
under the key `desktop-commander` (removing a truthy legacy `desktopCommander`
entry), persists the result with `writeFileSync`, and then makes a best-effort
attempt to restart the Claude application.

This file shallowly embeds the JSON data model and the operations of that
script, and proves properties about them.  JavaScript objects are modelled as
ordered association lists without duplicate keys (the shape `JSON.parse`
produces); JavaScript truthiness is modelled explicitly because the script
branches on it.
-/

set_option autoImplicit false

namespace DesktopCommander

/-- JSON values, as produced by `JSON.parse`.  Numbers are modelled as
integers, which covers every numeric literal appearing in the script. -/
inductive JValue where
  | null
  | bool (b : Bool)
  | num (n : Int)
  | str (s : String)
  | arr (elems : List JValue)
  | obj (entries : List (String × JValue))

mutual

/-- Decidable equality for `JValue` (the nested inductive prevents
auto-derivation). -/
def JValue.decEq : (a b : JValue) → Decidable (a = b)
  | .null, .null => isTrue rfl
  | .bool a, .bool b =>
    if h : a = b then isTrue (by rw [h]) else isFalse (by intro hh; injection hh; contradiction)
  | .num a, .num b =>
    if h : a = b then isTrue (by rw [h]) else isFalse (by intro hh; injection hh; contradiction)
  | .str a, .str b =>
    if h : a = b then isTrue (by rw [h]) else isFalse (by intro hh; injection hh; contradiction)
  | .arr a, .arr b =>
    match JValue.decEqArr a b with
    | isTrue h => isTrue (by rw [h])
    | isFalse h => isFalse (by intro hh; injection hh; contradiction)
  | .obj a, .obj b =>
    match JValue.decEqObj a b with
    | isTrue h => isTrue (by rw [h])
    | isFalse h => isFalse (by intro hh; injection hh; contradiction)
  | .null, .bool _ => isFalse (by intro h; exact JValue.noConfusion h)
  | .null, .num _ => isFalse (by intro h; exact JValue.noConfusion h)
  | .null, .str _ => isFalse (by intro h; exact JValue.noConfusion h)
  | .null, .arr _ => isFalse (by intro h; exact JValue.noConfusion h)
  | .null, .obj _ => isFalse (by intro h; exact JValue.noConfusion h)
  | .bool _, .null => isFalse (by intro h; exact JValue.noConfusion h)
  | .bool _, .num _ => isFalse (by intro h; exact JValue.noConfusion h)
  | .bool _, .str _ => isFalse (by intro h; exact JValue.noConfusion h)
  | .bool _, .arr _ => isFalse (by intro h; exact JValue.noConfusion h)
  | .bool _, .obj _ => isFalse (by intro h; exact JValue.noConfusion h)
  | .num _, .null => isFalse (by intro h; exact JValue.noConfusion h)
  | .num _, .bool _ => isFalse (by intro h; exact JValue.noConfusion h)
  | .num _, .str _ => isFalse (by intro h; exact JValue.noConfusion h)
  | .num _, .arr _ => isFalse (by intro h; exact JValue.noConfusion h)
  | .num _, .obj _ => isFalse (by intro h; exact JValue.noConfusion h)
  | .str _, .null => isFalse (by intro h; exact JValue.noConfusion h)
  | .str _, .bool _ => isFalse (by intro h; exact JValue.noConfusion h)
  | .str _, .num _ => isFalse (by intro h; exact JValue.noConfusion h)
  | .str _, .arr _ => isFalse (by intro h; exact JValue.noConfusion h)
  | .str _, .obj _ => isFalse (by intro h; exact JValue.noConfusion h)
  | .arr _, .null => isFalse (by intro h; exact JValue.noConfusion h)
  | .arr _, .bool _ => isFalse (by intro h; exact JValue.noConfusion h)
  | .arr _, .num _ => isFalse (by intro h; exact JValue.noConfusion h)
  | .arr _, .str _ => isFalse (by intro h; exact JValue.noConfusion h)
  | .arr _, .obj _ => isFalse (by intro h; exact JValue.noConfusion h)
  | .obj _, .null => isFalse (by intro h; exact JValue.noConfusion h)
  | .obj _, .bool _ => isFalse (by intro h; exact JValue.noConfusion h)
  | .obj _, .num _ => isFalse (by intro h; exact JValue.noConfusion h)
  | .obj _, .str _ => isFalse (by intro h; exact JValue.noConfusion h)
  | .obj _, .arr _ => isFalse (by intro h; exact JValue.noConfusion h)

def JValue.decEqArr : (a b : List JValue) → Decidable (a = b)
  | [], [] => isTrue rfl
  | [], _ :: _ => isFalse (by intro h; exact List.noConfusion h)
  | _ :: _, [] => isFalse (by intro h; exact List.noConfusion h)
  | a :: as, b :: bs =>
    match JValue.decEq a b with
    | isTrue h1 =>
      match JValue.decEqArr as bs with
      | isTrue h2 => isTrue (by rw [h1, h2])
      | isFalse h2 => isFalse (by intro hh; injection hh; contradiction)
    | isFalse h1 => isFalse (by intro hh; injection hh; contradiction)

def JValue.decEqObj : (a b : List (String × JValue)) → Decidable (a = b)
  | [], [] => isTrue rfl
  | [], _ :: _ => isFalse (by intro h; exact List.noConfusion h)
  | _ :: _, [] => isFalse (by intro h; exact List.noConfusion h)
  | (k, a) :: as, (l, b) :: bs =>
    if hk : k = l then
      match JValue.decEq a b with
      | isTrue h1 =>
        match JValue.decEqObj as bs with
        | isTrue h2 => isTrue (by rw [hk, h1, h2])
        | isFalse h2 => isFalse (by intro hh; injection hh; contradiction)
      | isFalse h1 =>
        isFalse (by
          intro hh
          injection hh with hh1 hh2
          exact h1 (congrArg Prod.snd hh1))
    else
      isFalse (by
        intro hh
        injection hh with hh1 hh2
        exact hk (congrArg Prod.fst hh1))

end

instance : DecidableEq JValue := JValue.decEq

instance {ε α : Type} [DecidableEq ε] [DecidableEq α] : DecidableEq (Except ε α) := by
  intro a b
  cases a with
  | error e =>
    cases b with
    | error f =>
      exact if h : e = f then isTrue (by rw [h]) else
        isFalse (by intro hh; injection hh; contradiction)
    | ok y => exact isFalse (by intro hh; exact Except.noConfusion hh)
  | ok x =>
    cases b with
    | error f => exact isFalse (by intro hh; exact Except.noConfusion hh)
    | ok y =>
      exact if h : x = y then isTrue (by rw [h]) else
        isFalse (by intro hh; injection hh; contradiction)

/-- JavaScript truthiness of a JSON value: `null`, `false`, `0` and the empty
string are falsy; arrays and objects are always truthy. -/
def jsTruthy : JValue → Bool
  | .null => false
  | .bool b => b
  | .num n => decide (n ≠ 0)
  | .str s => decide (s ≠ "")
  | .arr _ => true
  | .obj _ => true

/-- Truthiness of a property lookup: an absent property (`undefined`) is
falsy. -/
def jsTruthyOpt : Option JValue → Bool
  | none => false
  | some v => jsTruthy v

/-- Property read on a JSON object, modelled over its entry list.  A JS object
has no duplicate keys; on lists the first matching entry wins. -/
def objGet : List (String × JValue) → String → Option JValue
  | [], _ => none
  | kv :: rest, k => if kv.1 = k then some kv.2 else objGet rest k

/-- Property write on a JSON object: replaces the value in place when the key
exists (keeping insertion order, as JS objects do), otherwise appends the new
key at the end. -/
def objSet : List (String × JValue) → String → JValue → List (String × JValue)
  | [], k, v => [(k, v)]
  | kv :: rest, k, v => if kv.1 = k then (k, v) :: rest else kv :: objSet rest k v

/-- The JS `delete` operator on a JSON object: removes the entry for the key. -/
def objDelete : List (String × JValue) → String → List (String × JValue)
  | [], _ => []
  | kv :: rest, k => if kv.1 = k then objDelete rest k else kv :: objDelete rest k

/-! ## The config merge (`update_config` block of `setup`)

Source:
```
if (!config.mcpServers) { config.mcpServers = {}; }
if (config.mcpServers.desktopCommander) { delete config.mcpServers.desktopCommander; }
config.mcpServers["desktop-commander"] = serverConfig;
writeFileSync(claudeConfigPath, JSON.stringify(config, null, 2), 'utf8');
```
Both `if`s test JavaScript truthiness.  The merge is modelled at the level of
the JSON value that `JSON.stringify` ultimately serializes:
* if `mcpServers` is falsy (absent, `null`, `false`, `0`, `""`), it is first
  replaced by an empty object;
* if it is then an object, the two property updates apply to it;
* if it is a (truthy) JSON array, the two property accesses are no-ops at the
  serialization level: `.desktopCommander` on an array is `undefined` (falsy,
  so no delete), and the string-keyed property assigned to the array is
  dropped by `JSON.stringify`, so the serialized config is unchanged;
* if it is a truthy primitive (non-empty string, non-zero number, `true`),
  the property assignment on a primitive throws a `TypeError` in strict mode,
  which the caller catches as a failed `update_config` step. -/

/-- The merge step on a top-level JSON object config (entry list), returning
`Except` to model the strict-mode `TypeError` on truthy-primitive
`mcpServers`. -/
def mergeConfig (config : List (String × JValue)) (spec : JValue) :
    Except Unit (List (String × JValue)) :=
  let config1 :=
    if jsTruthyOpt (objGet config "mcpServers") then config
    else objSet config "mcpServers" (.obj [])
  match objGet config1 "mcpServers" with
  | some (.obj ms) =>
    let ms1 :=
      if jsTruthyOpt (objGet ms "desktopCommander") then objDelete ms "desktopCommander"
      else ms
    .ok (objSet config1 "mcpServers" (.obj (objSet ms1 "desktop-commander" spec)))
  | some (.arr _) => .ok config1
  | _ => .error ()

/-- The merge step on an arbitrary parsed JSON value.  A non-object top-level
value either throws at `config.mcpServers = {}` / on the `null` property read
(primitives, `null`), or, for an array, survives with the added string-keyed
properties dropped by `JSON.stringify`. -/
def mergeTop (config : JValue) (spec : JValue) : Except Unit JValue :=
  match config with
  | .obj entries => (mergeConfig entries spec).map .obj
  | .arr xs => .ok (.arr xs)
  | _ => .error ()

/-- The entry list of the `mcpServers` map of a config; empty when
`mcpServers` is absent or not an object. -/
def mcpEntries (config : List (String × JValue)) : List (String × JValue) :=
  match objGet config "mcpServers" with
  | some (.obj ms) => ms
  | _ => []

/-- Lookup of a named server entry inside a config. -/
def lookupServer (config : List (String × JValue)) (name : String) : Option JValue :=
  objGet (mcpEntries config) name

/-- A concrete server-launch entry (the non-debug npx spec the script builds). -/
def sampleSpec : JValue :=
  .obj [("command", .str "npx"), ("args", .arr [.str "@wonderwhy-er/desktop-commander@latest"])]

/-- A host config whose legacy `desktopCommander` entry has the (falsy) value
`null`. -/
def legacyNullConfig : List (String × JValue) :=
  [("mcpServers", .obj [("desktopCommander", .null)])]

/-- A host config whose `mcpServers` value is a JSON array. -/
def arrayMcpConfig : List (String × JValue) :=
  [("mcpServers", .arr [.num 1])]

/-- A host config with an unrelated top-level key, a truthy legacy entry and an
unrelated server entry. -/
def richConfig : List (String × JValue) :=
  [("other", .num 1),
   ("mcpServers", .obj [("desktopCommander", .obj [("command", .str "old")]),
                        ("unrelated", .num 2)])]

/-- The merge output for `richConfig` and `sampleSpec`. -/
def richMerged : List (String × JValue) :=
  [("other", .num 1),
   ("mcpServers", .obj [("unrelated", .num 2), ("desktop-commander", sampleSpec)])]

/-! ## The setup run model

The script determines `os = platform()`, `isWindows = os === "win32"`, picks a
platform-specific `claudeConfigPath`, and `setup()` then runs:
configureFilesystemAccess (throws only if creating the tool config directory
fails), ensure the Claude config directory (throws on mkdir failure), load or
create the config file (absent: write a platform default immediately, step
`created`; present: parse, step `exists`, throwing on a JSON parse error),
build the server spec (pure), merge and persist (`update_config`), and
finally a best-effort restart whose failures are all caught.  The model
threads the Claude config file as an abstract `Option FileData`: absent, or
present with contents that are either malformed (JSON.parse throws) or parse
to a `JValue`.  Injected filesystem failures are boolean fields of the
environment.  The `exec_...` sub-steps of `execAsync` are elided from the
step log; each logical step is recorded with its final status. -/

inductive Platform where
  | win32
  | darwin
  | linux
  | other
deriving DecidableEq

/-- `isWindows = os === "win32"`. -/
def isWinP : Platform → Bool
  | .win32 => true
  | _ => false

/-- The on-disk state of a JSON config file that exists: raw contents that do
not parse, or contents that parse to a value. -/
inductive FileData where
  | malformed (raw : String)
  | parsed (v : JValue)
deriving DecidableEq

/-- Environment of one setup run: platform and execution context, plus
injected outcomes for the effectful collaborators.  `killRes`/`startRes` are
the `execAsync` outcomes inside `restartClaude` (`none` = success,
`some msg` = rejection). -/
structure SetupEnv where
  platform : Platform
  isNpx : Bool
  debugMode : Bool
  appData : String
  dirname : String
  fsAccessOk : Bool
  claudeDirOk : Bool
  writeOk : Bool
  killRes : Option String
  startRes : Option String
deriving DecidableEq

/-- The default config written when no Claude config file exists:
`{"serverConfig": {command, args}}` with the shell chosen by OS. -/
def defaultConfig (isWindows : Bool) : JValue :=
  .obj [("serverConfig",
    .obj [("command", .str (if isWindows then "cmd.exe" else "/bin/sh")),
          ("args", .arr [.str (if isWindows then "/c" else "-c")])])]

/-- The debug env vars injected in debug mode. -/
def debugEnvObj : JValue :=
  .obj [("NODE_OPTIONS", .str "--trace-warnings --trace-exit"), ("DEBUG", .str "*")]

/-- `.replace(/\\/g, "\\\\")`: double every backslash. -/
def doubleBackslashes (s : String) : String :=
  ⟨s.data.foldr (fun c acc => if c = '\\' then c :: c :: acc else c :: acc) []⟩

/-- `join(__dirname, "dist", "index.js")` with the platform separator. -/
def indexPath (isWindows : Bool) (dirname : String) : String :=
  dirname ++ (if isWindows then "\\dist\\index.js" else "/dist/index.js")

/-- The server-launch spec built by `setup` from debug mode × run method ×
platform (source: the `serverConfig` branches). -/
def serverSpec (env : SetupEnv) : JValue :=
  let isWindows := isWinP env.platform
  if env.debugMode then
    if env.isNpx then
      .obj [("command", .str (if isWindows then "node.exe" else "node")),
            ("args", .arr [.str "--inspect-brk=9229",
              .str (if isWindows
                    then doubleBackslashes (env.appData ++ "\\npm\\npx.cmd")
                    else "$(which npx)"),
              .str "@wonderwhy-er/desktop-commander@latest"]),
            ("env", debugEnvObj)]
    else
      .obj [("command", .str (if isWindows then "node.exe" else "node")),
            ("args", .arr [.str "--inspect-brk=9229",
              .str (indexPath isWindows env.dirname)]),
            ("env", debugEnvObj)]
  else
    if env.isNpx then
      .obj [("command", .str (if isWindows then "npx.cmd" else "npx")),
            ("args", .arr [.str "@wonderwhy-er/desktop-commander@latest"])]
    else
      .obj [("command", .str "node"),
            ("args", .arr [.str (indexPath isWindows env.dirname)])]

/-- Result of the load-or-create phase (`check_config_file`): the config value
to continue with (or the thrown error message), the resulting on-disk file
state, and the step statuses recorded by the phase. -/
structure LoadResult where
  outcome : Except String JValue
  file : Option FileData
  steps : List (String × String)
deriving DecidableEq

/-- The load-or-create phase.  Note the absent-file branch writes the default
config to disk immediately (`writeFileSync(claudeConfigPath, ...)`) before
marking the step `created`. -/
def loadOrCreate (isWindows : Bool) (writeOk : Bool) (file : Option FileData) : LoadResult :=
  match file with
  | none =>
    if writeOk then
      { outcome := .ok (defaultConfig isWindows),
        file := some (.parsed (defaultConfig isWindows)),
        steps := [("check_config_file", "created")] }
    else
      { outcome := .error "Failed to create config file", file := file,
        steps := [("check_config_file", "create_failed")] }
  | some (.malformed raw) =>
    { outcome := .error "Failed to read config file", file := some (.malformed raw),
      steps := [("check_config_file", "started"), ("read_config_file", "failed")] }
  | some (.parsed v) =>
    { outcome := .ok v, file := some (.parsed v),
      steps := [("check_config_file", "exists"), ("read_config_file", "completed")] }

/-- Final step statuses of `restartClaude`, in begin order.  The kill failure
is caught inside and recorded as `no_process_found`; a relaunch failure is
caught by the outer handler which only logs; on `win32` the relaunch is
skipped; on an unmatched platform neither switch arm runs any command. -/
def killStatus (p : Platform) (killRes : Option String) : String :=
  match p, killRes with
  | .other, _ => "completed"
  | .win32, none => "completed"
  | .darwin, none => "completed"
  | .linux, none => "completed"
  | .win32, some _ => "no_process_found"
  | .darwin, some _ => "no_process_found"
  | .linux, some _ => "no_process_found"

def restartSteps (p : Platform) (killRes startRes : Option String) : List (String × String) :=
  match p with
  | .win32 =>
    [("restart_claude", "completed"), ("kill_claude_process", killStatus p killRes),
     ("start_claude_process", "skipped")]
  | .other =>
    [("restart_claude", "completed"), ("kill_claude_process", killStatus p killRes),
     ("start_claude_process", "started")]
  | .darwin =>
    match startRes with
    | none =>
      [("restart_claude", "completed"), ("kill_claude_process", killStatus p killRes),
       ("start_claude_process", "completed")]
    | some _ =>
      [("restart_claude", "failed"), ("kill_claude_process", killStatus p killRes),
       ("start_claude_process", "failed")]
  | .linux =>
    match startRes with
    | none =>
      [("restart_claude", "completed"), ("kill_claude_process", killStatus p killRes),
       ("start_claude_process", "completed")]
    | some _ =>
      [("restart_claude", "failed"), ("kill_claude_process", killStatus p killRes),
       ("start_claude_process", "failed")]

/-- Result of one whole `setup()` run: the returned boolean, the final state
of the Claude config file, the message of the error caught by the outer
handler (if any), and the step statuses in begin order. -/
structure RunResult where
  success : Bool
  file : Option FileData
  errMsg : Option String
  steps : List (String × String)
deriving DecidableEq

/-- One whole `setup()` run over the Claude config file state. -/
def setup (env : SetupEnv) (file : Option FileData) : RunResult :=
  if env.fsAccessOk = false then
    { success := false, file := file, errMsg := some "Error creating tool config directory",
      steps := [("main_setup", "failed")] }
  else if env.claudeDirOk = false then
    { success := false, file := file, errMsg := some "Failed to create config directory",
      steps := [("main_setup", "failed"), ("check_config_directory", "failed")] }
  else
    match loadOrCreate (isWinP env.platform) env.writeOk file with
    | { outcome := .error e, file := f1, steps := steps1 } =>
      { success := false, file := f1, errMsg := some e,
        steps := [("main_setup", "failed"), ("check_config_directory", "completed")] ++ steps1 }
    | { outcome := .ok config, file := f1, steps := steps1 } =>
      match mergeTop config (serverSpec env) with
      | .error _ =>
        { success := false, file := f1, errMsg := some "Failed to update config",
          steps := [("main_setup", "failed"), ("check_config_directory", "completed")]
            ++ steps1 ++ [("prepare_server_config", "completed"), ("update_config", "failed")] }
      | .ok merged =>
        if env.writeOk = false then
          { success := false, file := f1, errMsg := some "Failed to update config",
            steps := [("main_setup", "failed"), ("check_config_directory", "completed")]
              ++ steps1 ++ [("prepare_server_config", "completed"), ("update_config", "failed")] }
        else
          { success := true, file := some (.parsed merged), errMsg := none,
            steps := [("main_setup", "completed"), ("check_config_directory", "completed")]
              ++ steps1
              ++ [("prepare_server_config", "completed"), ("update_config", "completed")]
              ++ restartSteps env.platform env.killRes env.startRes }

/-- Replace only the restart outcomes of an environment. -/
def setRestart (env : SetupEnv) (killRes startRes : Option String) : SetupEnv :=
  { env with killRes := killRes, startRes := startRes }

/-- A concrete healthy environment: Linux, npx run method, no debug flag, all
filesystem operations succeed, restart commands succeed. -/
def envLinuxNpx : SetupEnv :=
  { platform := .linux, isNpx := true, debugMode := false, appData := "", dirname := "",
    fsAccessOk := true, claudeDirOk := true, writeOk := true,
    killRes := none, startRes := none }

/-- The `mcpServers` entries of the config file left behind by a run. -/
def finalMcpEntries (r : RunResult) : List (String × JValue) :=
  match r.file with
  | some (.parsed (.obj c)) => mcpEntries c
  | _ => []

/-! ## The persist write at the byte level (claim C1)

The script persists with a single `writeFileSync(claudeConfigPath, data)` —
there is no temp-file-and-rename.  `writeFileSync` opens the path with
`O_TRUNC`, which empties the file, and then writes `data` sequentially. -/

set_option linter.unusedVariables false in
/-- On-disk content of the config file when a run of
`writeFileSync(path, newData)` over previous content `pre` is interrupted
(crash, disk full, ...) after `written` bytes: the truncation has already
discarded `pre`, so the file holds exactly the first `written` bytes of
`newData`. -/
def fileAfterInterruptedPersist (pre newData : String) (written : Nat) : List Char :=
  newData.data.take written

/-! ## Logging and error sanitization (claim C9)

`logToFile` (setup script) formats
`"[" + timestamp + "] " + (isError ? "ERROR: " : "") + message + "\n"` and
appends it to the log, also echoing to the console; the fatal handler calls
`logToFile("Error updating Claude configuration: " + String(error), true)`.
`sanitizeError` (src/utils/capture.ts) replaces path fragments in a message:
first `/(?:\/|\\)[\w\d_.-\/\\]+/g` (a slash or backslash followed by one or
more characters from letters, digits, underscore, dot, slash and backslash) and
`/[A-Za-z]:\\[\w\d_.-\/\\]+/g`, both with `"[PATH]"`.  The replaces are
modelled as left-to-right greedy scanners driven by a fuel that starts at the
input length (each step consumes at least one character, so the fuel never
runs out). -/

/-- The line `logToFile` writes for a message. -/
def logLine (timestamp message : String) (isError : Bool) : String :=
  "[" ++ timestamp ++ "] " ++ (if isError then "ERROR: " else "") ++ message ++ "\n"

/-- The message the outer fatal handler of `setup` logs, where `err` is the
JS string rendering of the caught error. -/
def fatalLogMessage (err : String) : String :=
  "Error updating Claude configuration: " ++ err

/-- Membership in the regex character class of the path replaces: word
characters, digits, underscore, dot, slash and backslash.  (In the class, the
hyphen sits between dot and slash, so it denotes the two-character range from
dot to slash, not a literal hyphen.) -/
def isPathClassChar (c : Char) : Bool :=
  c.isAlphanum || c = '_' || c = '.' || c = '/' || c = '\\'

/-- Whether a character list starts with a path-class character (the `+` of
the regex needs at least one). -/
def headIsPathClass : List Char → Bool
  | [] => false
  | c :: _ => isPathClassChar c

/-- First replace of `sanitizeError`: each maximal occurrence of a slash or
backslash followed by a nonempty run of path-class characters becomes
`[PATH]`. -/
def unixScanFuel : Nat → List Char → List Char
  | 0, l => l
  | _ + 1, [] => []
  | fuel + 1, c :: rest =>
    if (c = '/' || c = '\\') && headIsPathClass rest then
      "[PATH]".data ++ unixScanFuel fuel (rest.dropWhile isPathClassChar)
    else
      c :: unixScanFuel fuel rest

/-- Second replace of `sanitizeError`: each occurrence of a drive letter,
colon, backslash and a nonempty run of path-class characters becomes
`[PATH]`. -/
def winScanFuel : Nat → List Char → List Char
  | 0, l => l
  | _ + 1, [] => []
  | fuel + 1, a :: rest =>
    match rest with
    | b :: c :: d :: rest2 =>
      if a.isAlpha && b = ':' && c = '\\' && isPathClassChar d then
        "[PATH]".data ++ winScanFuel fuel (rest2.dropWhile isPathClassChar)
      else a :: winScanFuel fuel rest
    | _ => a :: winScanFuel fuel rest

/-- The `message` field computed by `sanitizeError` for a string input: both
regex replaces in order. -/
def sanitizeErrorMessage (s : String) : String :=
  let pass1 := unixScanFuel s.data.length s.data
  ⟨winScanFuel pass1.length pass1⟩

/-- Boolean substring test on character lists. -/
def containsSub : List Char → List Char → Bool
  | [], needle => needle.isEmpty
  | c :: rest, needle => needle.isPrefixOf (c :: rest) || containsSub rest needle

/-- A concrete fatal error rendering whose message carries a file path. -/
def pathyFatalError : String :=
  "Error: Failed to update config: EACCES, open /home/u/cfg.json"

/-! ## The tool-local config rewrite (claim C10)

`configureFilesystemAccess` builds the default
`{blockedCommands, defaultShell, allowedDirectories: []}`, overlays the
existing `~/.claude-server-commander/config.json` if it parses
(`config = { ...config, ...existingConfig }`; a parse error is caught and
ignored), then unconditionally sets `allowedDirectories = [homedir()]` and
writes the result back. -/

/-- The `blockedCommands` default list. -/
def blockedCommandsDefault : JValue :=
  .arr [.str "format", .str "mount", .str "umount", .str "mkfs", .str "fdisk", .str "dd",
        .str "sudo", .str "su", .str "passwd", .str "adduser", .str "useradd",
        .str "usermod", .str "groupadd"]

/-- The built-in default tool config. -/
def defaultToolConfig (isWindows : Bool) : List (String × JValue) :=
  [("blockedCommands", blockedCommandsDefault),
   ("defaultShell", .str (if isWindows then "powershell.exe" else "bash")),
   ("allowedDirectories", .arr [])]

/-- The own enumerable entries a value contributes under `{...value}`:
objects spread their entries, arrays and strings spread index keys,
primitives and `null` spread nothing. -/
def spreadEntries : JValue → List (String × JValue)
  | .obj entries => entries
  | .arr xs => xs.enum.map fun p => (toString p.1, p.2)
  | .str s => s.data.enum.map fun p => (toString p.1, .str ⟨[p.2]⟩)
  | _ => []

/-- `{ ...base, ...extra }` (property definition order: base keys keep their
position, extra keys override in place or append). -/
def spreadMerge (base extra : List (String × JValue)) : List (String × JValue) :=
  extra.foldl (fun acc kv => objSet acc kv.1 kv.2) base

/-- The tool config value computed (and written back) by
`configureFilesystemAccess`, as a function of the previous on-disk state of
the tool config file and the home directory. -/
def configureFilesystemAccess (isWindows : Bool) (existing : Option FileData)
    (home : String) : List (String × JValue) :=
  let config := defaultToolConfig isWindows
  let config :=
    match existing with
    | some (.parsed v) => spreadMerge config (spreadEntries v)
    | _ => config
  objSet config "allowedDirectories" (.arr [.str home])

/-- A concrete previous tool config with a persisted `allowedDirectories`
value and keys that override the defaults. -/
def toolCfgOld : List (String × JValue) :=
  [("allowedDirectories", .arr [.str "/tmp/x"]), ("customKey", .str "keep"),
   ("defaultShell", .str "zsh")]

theorem objGet_objSet (o : List (String × JValue)) (k : String) (v : JValue)
    (q : String) : objGet (objSet o k v) q = if q = k then some v else objGet o q := by
  induction o with
  | nil =>
    by_cases h : q = k
    · simp [objSet, objGet, h]
    · simp [objSet, objGet, h, Ne.symm h]
  | cons kv rest ih =>
    by_cases hk : kv.1 = k
    · by_cases hq : q = k
      · simp [objSet, objGet, hk, hq]
      · simp [objSet, objGet, hk, hq, Ne.symm hq]
    · by_cases hq : kv.1 = q
      · have hqk : ¬ q = k := fun h => hk (hq.trans h)
        simp [objSet, objGet, hk, hq, hqk]
      · simp [objSet, objGet, hk, hq, ih]

theorem objSet_self (o : List (String × JValue)) (k : String) (v : JValue)
    (h : objGet o k = some v) : objSet o k v = o := by
  induction o with
  | nil => simp [objGet] at h
  | cons kv rest ih =>
    obtain ⟨k0, v0⟩ := kv
    by_cases hk : k0 = k
    · simp [objGet, hk] at h
      simp [objSet, hk, h]
    · simp [objGet, hk] at h
      simp [objSet, hk, ih h]

theorem objGet_objDelete (o : List (String × JValue)) (k q : String) :
    objGet (objDelete o k) q = if q = k then none else objGet o q := by
  induction o with
  | nil => simp [objDelete, objGet]
  | cons kv rest ih =>
    by_cases hk : kv.1 = k
    · by_cases hq : q = k
      · subst hq
        simp [objDelete, hk, ih]
      · simp [objDelete, hk, ih, hq, objGet, Ne.symm hq]
    · by_cases hq : kv.1 = q
      · have hqk : ¬ q = k := fun h => hk (hq.trans h)
        simp [objDelete, hk, objGet, hq, hqk]
      · simp [objDelete, hk, objGet, hq, ih]

theorem objSet_objSet (o : List (String × JValue)) (k : String) (v w : JValue) :
    objSet (objSet o k v) k w = objSet o k w := by
  induction o with
  | nil => simp [objSet]
  | cons kv rest ih =>
    by_cases hk : kv.1 = k
    · simp [objSet, hk]
    · simp [objSet, hk, ih]

@[simp] theorem jsTruthyOpt_none : jsTruthyOpt none = false := rfl

@[simp] theorem jsTruthyOpt_null : jsTruthyOpt (some .null) = false := rfl

@[simp] theorem jsTruthyOpt_bool (b : Bool) : jsTruthyOpt (some (.bool b)) = b := rfl

@[simp] theorem jsTruthyOpt_num (n : Int) : jsTruthyOpt (some (.num n)) = decide (n ≠ 0) := rfl

@[simp] theorem jsTruthyOpt_str (s : String) :
    jsTruthyOpt (some (.str s)) = decide (s ≠ "") := rfl

@[simp] theorem jsTruthyOpt_arr (xs : List JValue) : jsTruthyOpt (some (.arr xs)) = true := rfl

@[simp] theorem jsTruthyOpt_obj (ms : List (String × JValue)) :
    jsTruthyOpt (some (.obj ms)) = true := rfl

theorem mcpEntries_of_falsy (c : List (String × JValue))
    (h : jsTruthyOpt (objGet c "mcpServers") = false) : mcpEntries c = [] := by
  unfold mcpEntries
  cases hv : objGet c "mcpServers" with
  | none => rfl
  | some v => cases v <;> simp_all

/-- Exhaustive description of the successful outcomes of the merge step. -/
theorem mergeConfig_ok_cases (c : List (String × JValue)) (spec : JValue)
    (c' : List (String × JValue)) (h : mergeConfig c spec = .ok c') :
    (∃ xs, objGet c "mcpServers" = some (.arr xs) ∧ c' = c) ∨
    (∃ ms, objGet c "mcpServers" = some (.obj ms) ∧
      c' = objSet c "mcpServers"
            (.obj (objSet (if jsTruthyOpt (objGet ms "desktopCommander") = true
                           then objDelete ms "desktopCommander" else ms)
                   "desktop-commander" spec))) ∨
    (jsTruthyOpt (objGet c "mcpServers") = false ∧
      c' = objSet c "mcpServers" (.obj [("desktop-commander", spec)])) := by
  by_cases ht : jsTruthyOpt (objGet c "mcpServers") = true
  · cases hv : objGet c "mcpServers" with
    | none => rw [hv] at ht; simp at ht
    | some v =>
      cases v with
      | arr xs =>
        left
        refine ⟨xs, rfl, ?_⟩
        unfold mergeConfig at h
        simp [hv] at h
        exact h.symm
      | obj ms =>
        right; left
        refine ⟨ms, rfl, ?_⟩
        unfold mergeConfig at h
        simp [hv] at h
        exact h.symm
      | null => rw [hv] at ht; simp at ht
      | bool b =>
        rw [hv] at ht
        simp at ht
        unfold mergeConfig at h
        subst ht
        simp [hv] at h
      | num n =>
        rw [hv] at ht
        simp at ht
        unfold mergeConfig at h
        simp [hv, ht] at h
      | str s =>
        rw [hv] at ht
        simp at ht
        unfold mergeConfig at h
        simp [hv, ht] at h
  · right; right
    have hf : jsTruthyOpt (objGet c "mcpServers") = false := eq_false_of_ne_true ht
    refine ⟨hf, ?_⟩
    unfold mergeConfig at h
    rw [hf] at h
    simp only [Bool.false_eq_true, if_false] at h
    rw [objGet_objSet] at h
    simp [objGet, objSet_objSet] at h
    exact h.symm

/-- C2: for every starting host config on which the merge step succeeds, the
merge-and-persist step changes only the `mcpServers` entry for the new server
name and the legacy-named entry: every other top-level key of the config and
every other entry under `mcpServers` keeps its value in the persisted output
(which serializes exactly the merged value). -/
theorem merge_preserves_unrelated (c : List (String × JValue)) (spec : JValue)
    (c' : List (String × JValue)) (h : mergeConfig c spec = .ok c') :
    (∀ k, k ≠ "mcpServers" → objGet c' k = objGet c k) ∧
    (∀ k, k ≠ "desktop-commander" → k ≠ "desktopCommander" →
      lookupServer c' k = lookupServer c k) := by
  rcases mergeConfig_ok_cases c spec c' h with ⟨xs, hv, rfl⟩ | ⟨ms, hv, rfl⟩ | ⟨hf, rfl⟩
  · exact ⟨fun k _ => rfl, fun k _ _ => rfl⟩
  · constructor
    · intro k hk
      rw [objGet_objSet, if_neg hk]
    · intro k hk1 hk2
      unfold lookupServer mcpEntries
      rw [objGet_objSet, if_pos rfl, hv]
      rw [objGet_objSet, if_neg hk1]
      by_cases hdc : jsTruthyOpt (objGet ms "desktopCommander") = true
      · rw [if_pos hdc, objGet_objDelete, if_neg hk2]
      · rw [if_neg hdc]
  · constructor
    · intro k hk
      rw [objGet_objSet, if_neg hk]
    · intro k hk1 _
      unfold lookupServer
      rw [mcpEntries_of_falsy c hf]
      unfold mcpEntries
      rw [objGet_objSet, if_pos rfl]
      simp [objGet, Ne.symm hk1]

/-- C2 witness: the frame property at a concrete input. -/
theorem merge_preserves_unrelated_witness :
    objGet richMerged "other" = objGet richConfig "other" ∧
    lookupServer richMerged "unrelated" = lookupServer richConfig "unrelated" :=
  ⟨(merge_preserves_unrelated richConfig sampleSpec richMerged (by decide)).1
      "other" (by decide),
   (merge_preserves_unrelated richConfig sampleSpec richMerged (by decide)).2
      "unrelated" (by decide) (by decide)⟩

/-- C3 counterexample: the claim "merge removes any entry under the legacy
server name and replaces mcpServers[serverName] wholesale" fails on the code:
a legacy entry with the falsy value `null` survives the merge (the delete is
guarded by a truthiness test), and a JSON-array `mcpServers` passes through
with no `desktop-commander` entry in the serialized output at all. -/
theorem merge_legacy_removal_counterexample :
    mergeConfig legacyNullConfig sampleSpec
      = .ok [("mcpServers",
              .obj [("desktopCommander", .null), ("desktop-commander", sampleSpec)])] ∧
    lookupServer
      [("mcpServers",
        .obj [("desktopCommander", .null), ("desktop-commander", sampleSpec)])]
      "desktopCommander" = some .null ∧
    mergeConfig arrayMcpConfig sampleSpec = .ok arrayMcpConfig ∧
    lookupServer arrayMcpConfig "desktop-commander" = none := by
  decide

/-- C3 (amended): for every input config whose `mcpServers` value is not a
JSON array, a successful merge returns a config identical to the input except
that (a) the legacy `desktopCommander` entry is removed when its value is
truthy (a falsy-valued legacy entry, e.g. `null`, is kept unchanged), and
(b) `mcpServers["desktop-commander"]` is replaced wholesale by the freshly
built spec; in particular a truthy legacy entry is absent after one run and
the new name is present. -/
theorem merge_replaces_wholesale (c : List (String × JValue)) (spec : JValue)
    (c' : List (String × JValue)) (h : mergeConfig c spec = .ok c')
    (hna : ∀ xs, objGet c "mcpServers" ≠ some (.arr xs)) :
    lookupServer c' "desktop-commander" = some spec ∧
    (jsTruthyOpt (lookupServer c "desktopCommander") = true →
      lookupServer c' "desktopCommander" = none) ∧
    (jsTruthyOpt (lookupServer c "desktopCommander") = false →
      lookupServer c' "desktopCommander" = lookupServer c "desktopCommander") ∧
    (∀ k, k ≠ "mcpServers" → objGet c' k = objGet c k) := by
  rcases mergeConfig_ok_cases c spec c' h with ⟨xs, hv, rfl⟩ | ⟨ms, hv, rfl⟩ | ⟨hf, rfl⟩
  · exact absurd hv (hna xs)
  · have hms : mcpEntries c = ms := by unfold mcpEntries; rw [hv]
    have hdcc : lookupServer c "desktopCommander" = objGet ms "desktopCommander" := by
      unfold lookupServer; rw [hms]
    have hent : mcpEntries
        (objSet c "mcpServers"
          (.obj (objSet (if jsTruthyOpt (objGet ms "desktopCommander") = true
                         then objDelete ms "desktopCommander" else ms)
                 "desktop-commander" spec)))
        = objSet (if jsTruthyOpt (objGet ms "desktopCommander") = true
                  then objDelete ms "desktopCommander" else ms)
            "desktop-commander" spec := by
      unfold mcpEntries
      rw [objGet_objSet, if_pos rfl]
    refine ⟨?_, ?_, ?_, ?_⟩
    · unfold lookupServer
      rw [hent, objGet_objSet, if_pos rfl]
    · intro hdc
      unfold lookupServer
      rw [hent, objGet_objSet,
        if_neg (by decide : ¬ ("desktopCommander" : String) = "desktop-commander")]
      rw [hdcc] at hdc
      rw [if_pos hdc, objGet_objDelete, if_pos rfl]
    · intro hdc
      unfold lookupServer
      rw [hent, objGet_objSet,
        if_neg (by decide : ¬ ("desktopCommander" : String) = "desktop-commander")]
      rw [hdcc] at hdc
      rw [hdc]
      simp only [Bool.false_eq_true, if_false]
      rw [hms]
    · intro k hk
      rw [objGet_objSet, if_neg hk]
  · have hdcc : lookupServer c "desktopCommander" = none := by
      unfold lookupServer; rw [mcpEntries_of_falsy c hf]; rfl
    have hent : mcpEntries (objSet c "mcpServers" (.obj [("desktop-commander", spec)]))
        = [("desktop-commander", spec)] := by
      unfold mcpEntries
      rw [objGet_objSet, if_pos rfl]
    refine ⟨?_, ?_, ?_, ?_⟩
    · unfold lookupServer
      rw [hent]
      simp [objGet]
    · intro hdc
      rw [hdcc] at hdc
      simp at hdc
    · intro _
      unfold lookupServer
      rw [hent]
      simp [objGet, mcpEntries_of_falsy c hf]
    · intro k hk
      rw [objGet_objSet, if_neg hk]

/-- C3 witness: the amended behavior at a concrete input with a truthy legacy
entry. -/
theorem merge_replaces_wholesale_witness :
    lookupServer richMerged "desktop-commander" = some sampleSpec ∧
    lookupServer richMerged "desktopCommander" = none :=
  ⟨(merge_replaces_wholesale richConfig sampleSpec richMerged (by decide)
      (fun xs h => by simp [richConfig, objGet] at h)).1,
   (merge_replaces_wholesale richConfig sampleSpec richMerged (by decide)
      (fun xs h => by simp [richConfig, objGet] at h)).2.1 (by decide)⟩

/-- C6: the merge is idempotent — applying the merge step to its own output
(with the same freshly built spec) returns that output unchanged, so two
successive runs produce the same final config and in particular the same
`mcpServers["desktop-commander"]` entry. -/
theorem merge_idempotent (c : List (String × JValue)) (spec : JValue)
    (c' : List (String × JValue)) (h : mergeConfig c spec = .ok c') :
    mergeConfig c' spec = .ok c' := by
  rcases mergeConfig_ok_cases c spec c' h with ⟨xs, hv, rfl⟩ | ⟨ms, hv, hc⟩ | ⟨hf, hc⟩
  · exact h
  · set ms1 := (if jsTruthyOpt (objGet ms "desktopCommander") = true
                then objDelete ms "desktopCommander" else ms) with hms1
    set N := objSet ms1 "desktop-commander" spec with hNdef
    have hN : objGet c' "mcpServers" = some (.obj N) := by
      rw [hc, objGet_objSet, if_pos rfl]
    have hlegN : objGet N "desktopCommander" = objGet ms1 "desktopCommander" := by
      rw [hNdef, objGet_objSet,
        if_neg (by decide : ¬ ("desktopCommander" : String) = "desktop-commander")]
    have hlegf : jsTruthyOpt (objGet N "desktopCommander") = false := by
      rw [hlegN, hms1]
      by_cases hdc : jsTruthyOpt (objGet ms "desktopCommander") = true
      · rw [if_pos hdc, objGet_objDelete, if_pos rfl]
        rfl
      · rw [if_neg hdc]
        exact eq_false_of_ne_true hdc
    have hdcN : objGet N "desktop-commander" = some spec := by
      rw [hNdef, objGet_objSet, if_pos rfl]
    unfold mergeConfig
    simp only [hN, jsTruthyOpt_obj, if_true, hlegf, Bool.false_eq_true, if_false]
    rw [objSet_self N "desktop-commander" spec hdcN]
    rw [objSet_self c' "mcpServers" (.obj N) hN]
  · have hN : objGet c' "mcpServers" = some (.obj [("desktop-commander", spec)]) := by
      rw [hc, objGet_objSet, if_pos rfl]
    unfold mergeConfig
    simp only [hN, jsTruthyOpt_obj, if_true]
    have hleg : objGet [("desktop-commander", spec)] "desktopCommander" = none := by
      simp [objGet]
    have hdcN : objGet [("desktop-commander", spec)] "desktop-commander" = some spec := by
      simp [objGet]
    simp only [hleg, jsTruthyOpt_none, Bool.false_eq_true, if_false]
    rw [objSet_self _ "desktop-commander" spec hdcN]
    rw [objSet_self c' "mcpServers" _ hN]

/-- C6 witness: idempotence at a concrete input. -/
theorem merge_idempotent_witness : mergeConfig richMerged sampleSpec = .ok richMerged :=
  merge_idempotent richConfig sampleSpec richMerged (by decide)

@[simp] theorem setRestart_platform (env : SetupEnv) (kr sr : Option String) :
    (setRestart env kr sr).platform = env.platform := rfl

@[simp] theorem setRestart_fsAccessOk (env : SetupEnv) (kr sr : Option String) :
    (setRestart env kr sr).fsAccessOk = env.fsAccessOk := rfl

@[simp] theorem setRestart_claudeDirOk (env : SetupEnv) (kr sr : Option String) :
    (setRestart env kr sr).claudeDirOk = env.claudeDirOk := rfl

@[simp] theorem setRestart_writeOk (env : SetupEnv) (kr sr : Option String) :
    (setRestart env kr sr).writeOk = env.writeOk := rfl

@[simp] theorem serverSpec_setRestart (env : SetupEnv) (kr sr : Option String) :
    serverSpec (setRestart env kr sr) = serverSpec env := rfl

/-- The overall run result as a function of the phase outcomes: success iff
the tool config dir, the Claude config dir, the load-or-create phase, the
merge and the final write all succeed — the restart outcomes never enter. -/
theorem setup_success_spec (env : SetupEnv) (file : Option FileData) :
    (setup env file).success =
      (env.fsAccessOk && env.claudeDirOk &&
        (match (loadOrCreate (isWinP env.platform) env.writeOk file).outcome with
         | .error _ => false
         | .ok config =>
           match mergeTop config (serverSpec env) with
           | .error _ => false
           | .ok _ => env.writeOk)) := by
  unfold setup
  cases hf : env.fsAccessOk with
  | false => simp
  | true =>
    cases hd : env.claudeDirOk with
    | false => simp
    | true =>
      simp only [Bool.true_eq_false, if_false, Bool.true_and]
      cases hlc : loadOrCreate (isWinP env.platform) env.writeOk file with
      | mk out f1 steps1 =>
        cases out with
        | error e => simp
        | ok config =>
          cases hm : mergeTop config (serverSpec env) with
          | error u => simp [hm]
          | ok merged =>
            cases hw : env.writeOk <;> simp [hm, hw]

/-- C4: if the host config file exists but its contents are not valid JSON,
the run fails with the read error and aborts: provided the preceding
directory phases did not already fail, the orchestrator returns overall
failure with the "Failed to read config file" error, and the malformed
on-disk file is left exactly as it was (no write to it occurs in that
run). -/
theorem malformed_config_aborts (env : SetupEnv) (raw : String)
    (h1 : env.fsAccessOk = true) (h2 : env.claudeDirOk = true) :
    (setup env (some (.malformed raw))).success = false ∧
    (setup env (some (.malformed raw))).file = some (.malformed raw) ∧
    (setup env (some (.malformed raw))).errMsg = some "Failed to read config file" := by
  unfold setup
  rw [h1, h2]
  simp [loadOrCreate]

/-- C4 witness: a malformed config file aborts a concrete healthy run. -/
theorem malformed_config_aborts_witness :
    (setup envLinuxNpx (some (.malformed "not json"))).success = false ∧
    (setup envLinuxNpx (some (.malformed "not json"))).file = some (.malformed "not json") ∧
    (setup envLinuxNpx (some (.malformed "not json"))).errMsg
      = some "Failed to read config file" :=
  malformed_config_aborts envLinuxNpx "not json" rfl rfl

/-- C5: the restart phase is soft-fail: the overall run result is unchanged
under any combination of kill/relaunch outcomes; a kill failure on a real
platform is recorded as the `no_process_found` status rather than an error;
and once the `update_config` (merge-and-persist) step has completed the run
reports success regardless of everything that follows. -/
theorem restart_soft_fail :
    (∀ (env : SetupEnv) (file : Option FileData) (kr sr : Option String),
      (setup (setRestart env kr sr) file).success = (setup env file).success) ∧
    (∀ (p : Platform) (e : String) (sr : Option String), p ≠ Platform.other →
      ("kill_claude_process", "no_process_found") ∈ restartSteps p (some e) sr) ∧
    (∀ (env : SetupEnv) (file : Option FileData),
      ("update_config", "completed") ∈ (setup env file).steps →
      (setup env file).success = true) := by
  refine ⟨?_, ?_, ?_⟩
  · intro env file kr sr
    rw [setup_success_spec, setup_success_spec]
    simp
  · intro p e sr hp
    cases p with
    | other => exact absurd rfl hp
    | win32 => simp [restartSteps, killStatus]
    | darwin => cases sr <;> simp [restartSteps, killStatus]
    | linux => cases sr <;> simp [restartSteps, killStatus]
  · intro env file h
    unfold setup at h ⊢
    by_cases hf : env.fsAccessOk = false
    · rw [if_pos hf] at h
      simp at h
    · rw [if_neg hf] at h ⊢
      by_cases hd : env.claudeDirOk = false
      · rw [if_pos hd] at h
        simp at h
      · rw [if_neg hd] at h ⊢
        cases hlc : loadOrCreate (isWinP env.platform) env.writeOk file with
        | mk out f1 steps1 =>
          rw [hlc] at h
          have hs1 : ("update_config", "completed") ∉ steps1 := by
            have hst : steps1 = (loadOrCreate (isWinP env.platform) env.writeOk file).steps := by
              rw [hlc]
            rw [hst]
            unfold loadOrCreate
            cases file with
            | none => cases env.writeOk <;> simp
            | some fd => cases fd <;> simp
          cases out with
          | error e =>
            simp at h
            exact absurd h hs1
          | ok config =>
            cases hm : mergeTop config (serverSpec env) with
            | error u =>
              simp [hm] at h
              exact absurd h hs1
            | ok merged =>
              by_cases hw : env.writeOk = false
              · simp [hm, hw] at h
                exact absurd h hs1
              · simp [hm, hw]

/-- C5 witness: a failed kill leaves a concrete run successful, and the kill
failure is recorded as `no_process_found`. -/
theorem restart_soft_fail_witness :
    (setup (setRestart envLinuxNpx (some "no process") (some "boom")) none).success
      = (setup envLinuxNpx none).success ∧
    ("kill_claude_process", "no_process_found")
      ∈ restartSteps .linux (some "no process") none ∧
    (setup envLinuxNpx none).success = true :=
  ⟨restart_soft_fail.1 envLinuxNpx none (some "no process") (some "boom"),
   restart_soft_fail.2.1 .linux "no process" none (by decide),
   restart_soft_fail.2.2 envLinuxNpx none (by decide)⟩

/-- C7 counterexample: the claim that the load-or-default step signals
"created" without writing anything to disk fails on the code: when the file
is absent the step immediately writes the serialized default config, so the
file-system state after the step is no longer empty. -/
theorem loadOrCreate_writes_counterexample :
    (loadOrCreate false true none).file = some (.parsed (defaultConfig false)) ∧
    (loadOrCreate false true none).file ≠ none := by
  decide

/-- C7 (amended): when the host config file is absent, the load-or-create
phase returns the platform-appropriate default config (shell command/args
chosen by OS), marks the step `created`, and writes the default config to
disk at that point (the file exists afterwards with exactly the default
contents). -/
theorem loadOrCreate_absent_amended (isWindows : Bool) :
    loadOrCreate isWindows true none =
      { outcome := .ok (defaultConfig isWindows),
        file := some (.parsed (defaultConfig isWindows)),
        steps := [("check_config_file", "created")] } := rfl

/-- C8 counterexample: the claim that a fresh run produces an `mcpServers`
entry whose command/args match the platform default shell invocation fails:
on a Linux npx run the single entry's command is `npx`, not `/bin/sh`. -/
theorem fresh_run_shell_counterexample :
    (finalMcpEntries (setup envLinuxNpx none)).length = 1 ∧
    objGet (finalMcpEntries (setup envLinuxNpx none)) "desktop-commander"
      = some (.obj [("command", .str "npx"),
                    ("args", .arr [.str "@wonderwhy-er/desktop-commander@latest"])]) ∧
    JValue.str "npx" ≠ .str "/bin/sh" := by
  decide

/-- C8 (amended): starting from an empty home directory with no existing host
config, a healthy non-debug npx run produces a config file whose `mcpServers`
map contains exactly one entry, `desktop-commander`, holding the npx launch
spec; the detected platform's default shell invocation (`cmd.exe /c` on
Windows, `/bin/sh -c` otherwise) is written under the separate top-level
`serverConfig` key instead. -/
theorem fresh_run_amended (env : SetupEnv)
    (h1 : env.fsAccessOk = true) (h2 : env.claudeDirOk = true) (h3 : env.writeOk = true)
    (h4 : env.debugMode = false) (h5 : env.isNpx = true) :
    (setup env none).success = true ∧
    (setup env none).file = some (.parsed (.obj
      [("serverConfig", .obj
        [("command", .str (if isWinP env.platform then "cmd.exe" else "/bin/sh")),
         ("args", .arr [.str (if isWinP env.platform then "/c" else "-c")])]),
       ("mcpServers", .obj [("desktop-commander",
         .obj [("command", .str (if isWinP env.platform then "npx.cmd" else "npx")),
               ("args", .arr [.str "@wonderwhy-er/desktop-commander@latest"])])])])) ∧
    (finalMcpEntries (setup env none)).length = 1 ∧
    objGet (finalMcpEntries (setup env none)) "desktop-commander" = some (serverSpec env) := by
  obtain ⟨p, npx, dbg, ad, dn, fs, cd, wo, kr, sr⟩ := env
  simp only at h1 h2 h3 h4 h5
  subst h1 h2 h3 h4 h5
  refine ⟨?_, ?_, ?_, ?_⟩ <;>
    simp [setup, loadOrCreate, mergeTop, mergeConfig, serverSpec, defaultConfig,
      finalMcpEntries, mcpEntries, objGet, objSet, Except.map]

/-- C8 witness: the amended scenario at the concrete Linux npx environment. -/
theorem containsSub_nil_needle (l : List Char) : containsSub l [] = true := by
  induction l with
  | nil => rfl
  | cons c rest ih => simp [containsSub, List.isPrefixOf]

theorem containsSub_append_left (l1 l2 needle : List Char)
    (h : containsSub l2 needle = true) : containsSub (l1 ++ l2) needle = true := by
  induction l1 with
  | nil => simpa using h
  | cons c rest ih =>
    simp only [List.cons_append, containsSub, Bool.or_eq_true]
    exact Or.inr ih

theorem containsSub_append_right (l1 l2 needle : List Char)
    (h : containsSub l1 needle = true) : containsSub (l1 ++ l2) needle = true := by
  induction l1 with
  | nil =>
    cases needle with
    | nil => exact containsSub_nil_needle l2
    | cons n ns => simp [containsSub] at h
  | cons c rest ih =>
    simp only [containsSub, Bool.or_eq_true] at h
    simp only [List.cons_append, containsSub, Bool.or_eq_true]
    rcases h with h | h
    · left
      have hp : needle <+: c :: rest := List.isPrefixOf_iff_prefix.mp h
      exact List.isPrefixOf_iff_prefix.mpr (hp.trans (List.prefix_append (c :: rest) l2))
    · exact Or.inr (ih h)

/-- C1: the claim that persisting the host config is all-or-nothing fails on
the code: the script persists with a plain `writeFileSync`, which truncates
before writing, so a write failure midway (here: immediately after the
truncating open, and again after 9 bytes) leaves the file empty or holding a
strict prefix of the new data — not byte-identical to its pre-run state; only
an uninterrupted write produces the full new contents. -/
theorem persist_not_atomic :
    fileAfterInterruptedPersist "old config" "new config data" 0 = [] ∧
    fileAfterInterruptedPersist "old config" "new config data" 0 ≠ "old config".data ∧
    fileAfterInterruptedPersist "old config" "new config data" 9 = "new confi".data ∧
    fileAfterInterruptedPersist "old config" "new config data" 9 ≠ "old config".data ∧
    fileAfterInterruptedPersist "old config" "new config data" 15 = "new config data".data := by
  decide

/-- C9 counterexample: the claim that file-path fragments in fatal error
messages are redacted before logging fails on the code: `logToFile` writes
the fatal message verbatim, so the logged line still contains the raw path
and no `[PATH]` placeholder; the `sanitizeError` helper would have redacted
the path, but the setup script never calls it. -/
theorem fatal_log_not_redacted_counterexample :
    containsSub (logLine "2025-01-01T00:00:00.000Z" (fatalLogMessage pathyFatalError) true).data
      "/home/u/cfg.json".data = true ∧
    containsSub (logLine "2025-01-01T00:00:00.000Z" (fatalLogMessage pathyFatalError) true).data
      "[PATH]".data = false ∧
    sanitizeErrorMessage (fatalLogMessage pathyFatalError)
      = "Error updating Claude configuration: Error: Failed to update config: EACCES, open [PATH]" ∧
    containsSub (sanitizeErrorMessage (fatalLogMessage pathyFatalError)).data
      "/home/u/cfg.json".data = false := by
  decide

/-- C9 (amended): fatal error messages are written to console and diagnostic
log verbatim: `logToFile` applies no redaction, so every fragment of the
message (file paths included) appears in the logged line; path redaction to
the `[PATH]` placeholder exists only in the telemetry module's
`sanitizeError`, which the setup script's logging does not invoke. -/
theorem fatal_log_verbatim (timestamp msg : String) (sub : List Char)
    (h : containsSub msg.data sub = true) :
    containsSub (logLine timestamp (fatalLogMessage msg) true).data sub = true := by
  have h2 : containsSub (fatalLogMessage msg).data sub = true := by
    unfold fatalLogMessage
    rw [show ("Error updating Claude configuration: " ++ msg).data
        = "Error updating Claude configuration: ".data ++ msg.data from rfl]
    exact containsSub_append_left _ _ _ h
  unfold logLine
  rw [show ("[" ++ timestamp ++ "] " ++ (if true = true then "ERROR: " else "")
        ++ fatalLogMessage msg ++ "\n").data
      = ("[" ++ timestamp ++ "] " ++ (if true = true then "ERROR: " else "")).data
        ++ ((fatalLogMessage msg).data ++ "\n".data) from by simp [String.data_append]]
  exact containsSub_append_left _ _ _
    (containsSub_append_right _ _ _ h2)

/-- C9 witness: a fragment of a fatal message survives into the log line at a
concrete timestamp and message. -/
theorem fatal_log_verbatim_witness :
    containsSub (logLine "T" (fatalLogMessage "open /h/x") true).data "/h/x".data = true :=
  fatal_log_verbatim "T" "open /h/x" "/h/x".data (by decide)

theorem objGet_eq_none_of_not_mem (l : List (String × JValue)) (k : String)
    (h : k ∉ l.map Prod.fst) : objGet l k = none := by
  induction l with
  | nil => rfl
  | cons kv rest ih =>
    simp only [List.map_cons, List.mem_cons] at h
    push_neg at h
    rw [objGet, if_neg (fun hh => h.1 hh.symm)]
    exact ih h.2

theorem objGet_spreadMerge (extra : List (String × JValue)) (base : List (String × JValue))
    (k : String) (hnd : (extra.map Prod.fst).Nodup) :
    objGet (spreadMerge base extra) k
      = match objGet extra k with
        | some v => some v
        | none => objGet base k := by
  induction extra generalizing base with
  | nil => rfl
  | cons kv rest ih =>
    obtain ⟨k0, v0⟩ := kv
    simp only [List.map_cons, List.nodup_cons] at hnd
    have hsm : spreadMerge base ((k0, v0) :: rest) = spreadMerge (objSet base k0 v0) rest := rfl
    rw [hsm, ih (objSet base k0 v0) hnd.2]
    by_cases hk : k0 = k
    · subst hk
      rw [objGet_eq_none_of_not_mem rest k0 hnd.1]
      rw [show objGet ((k0, v0) :: rest) k0 = some v0 from by rw [objGet, if_pos rfl]]
      rw [objGet_objSet, if_pos rfl]
    · rw [show objGet ((k0, v0) :: rest) k = objGet rest k from by rw [objGet, if_neg hk]]
      cases objGet rest k with
      | some v => rfl
      | none => rw [objGet_objSet, if_neg (fun hh => hk hh.symm)]

/-- C10: on every run, whatever the tool config file previously contained,
`configureFilesystemAccess` computes (and writes back) a config whose
`allowedDirectories` is exactly the single entry `[home]` — any previously
persisted `allowedDirectories` value is silently discarded — while every
other key of a previously persisted object config overrides the built-in
default for that key. -/
theorem config_fs_access_resets_alloweddirs (isWindows : Bool)
    (existing : Option FileData) (home : String) :
    objGet (configureFilesystemAccess isWindows existing home) "allowedDirectories"
      = some (.arr [.str home]) ∧
    (∀ e k, existing = some (.parsed (.obj e)) → (e.map Prod.fst).Nodup →
      k ≠ "allowedDirectories" →
      objGet (configureFilesystemAccess isWindows existing home) k
        = match objGet e k with
          | some v => some v
          | none => objGet (defaultToolConfig isWindows) k) := by
  constructor
  · unfold configureFilesystemAccess
    rw [objGet_objSet, if_pos rfl]
  · intro e k hex hnd hk
    subst hex
    unfold configureFilesystemAccess
    rw [objGet_objSet, if_neg hk]
    exact objGet_spreadMerge e (defaultToolConfig isWindows) k hnd

/-- C10 witness: a previously persisted `allowedDirectories` is discarded and
other persisted keys override the defaults, at a concrete previous config. -/
theorem config_fs_access_witness :
    objGet (configureFilesystemAccess false (some (.parsed (.obj toolCfgOld))) "/home/u")
      "allowedDirectories" = some (.arr [.str "/home/u"]) ∧
    objGet (configureFilesystemAccess false (some (.parsed (.obj toolCfgOld))) "/home/u")
      "customKey" = some (.str "keep") ∧
    objGet (configureFilesystemAccess false (some (.parsed (.obj toolCfgOld))) "/home/u")
      "defaultShell" = some (.str "zsh") := by
  refine ⟨(config_fs_access_resets_alloweddirs false (some (.parsed (.obj toolCfgOld)))
      "/home/u").1, ?_, ?_⟩
  · rw [(config_fs_access_resets_alloweddirs false (some (.parsed (.obj toolCfgOld)))
        "/home/u").2 toolCfgOld "customKey" rfl (by decide) (by decide)]
    decide
  · rw [(config_fs_access_resets_alloweddirs false (some (.parsed (.obj toolCfgOld)))
        "/home/u").2 toolCfgOld "defaultShell" rfl (by decide) (by decide)]
    decide

theorem fresh_run_amended_witness :
    (setup envLinuxNpx none).success = true ∧
    (setup envLinuxNpx none).file = some (.parsed (.obj
      [("serverConfig", .obj
        [("command", .str "/bin/sh"), ("args", .arr [.str "-c"])]),
       ("mcpServers", .obj [("desktop-commander",
         .obj [("command", .str "npx"),
               ("args", .arr [.str "@wonderwhy-er/desktop-commander@latest"])])])])) ∧
    (finalMcpEntries (setup envLinuxNpx none)).length = 1 ∧
    objGet (finalMcpEntries (setup envLinuxNpx none)) "desktop-commander"
      = some (serverSpec envLinuxNpx) :=
  fresh_run_amended envLinuxNpx rfl rfl rfl rfl rfl

end DesktopCommander
